import Mathlib

/-!
Shallow embedding of the order-management CRUD layer
(`app/api/v1/endpoints/order/crud.py`) of a pizza/beverage ordering service.

The relational store is modelled as lists of rows; SQLAlchemy queries become
list joins/filters; `db.add`+`db.commit` appends a row; `db.delete` removes a
row; prices (floats carrying small decimal amounts) are modelled as rationals;
UUIDs are modelled as natural-number ids, freshly drawn from a counter.
A Python `AttributeError` is modelled as an explicit error value on the
operations that can raise one.
-/

namespace PizzaOrder

/-- Modelled from the spec: the `OrderStatus` enumeration lives in
`app.database.models`, which is not part of the provided sources.  The spec
gives `TRANSMITTED` as the initial state and mentions further states
(in-progress, delivered) without enumerating them. -/
inductive OrderStatus where
  | TRANSMITTED
  | IN_PROGRESS
  | DELIVERED
  deriving DecidableEq, Repr

/-- Modelled from the spec: the address payload embedded in an order-creation
schema; its individual fields are irrelevant to the claims, so it is carried
as one opaque datum. -/
structure AddressSchema where
  data : String
  deriving DecidableEq, Repr

/-- Modelled from the spec: an Address row, created alongside every order. -/
structure Address where
  id : Nat
  data : AddressSchema
  deriving DecidableEq, Repr

/-- The `Order` row: user id, optional address reference, status. -/
structure Order where
  id : Nat
  user_id : Nat
  address_id : Option Nat
  order_status : OrderStatus
  deriving DecidableEq, Repr

/-- The `Pizza` row: optional pizza-type reference, optional owning order. -/
structure Pizza where
  id : Nat
  pizza_type_id : Option Nat
  order_id : Option Nat
  deriving DecidableEq, Repr

/-- The `PizzaType` catalog row (only the fields the claims touch). -/
structure PizzaType where
  id : Nat
  name : String
  price : ℚ
  deriving DecidableEq, Repr

/-- The `Beverage` catalog row. -/
structure Beverage where
  id : Nat
  price : ℚ
  deriving DecidableEq, Repr

/-- The `OrderBeverageQuantity` join row. -/
structure OrderBeverageQuantity where
  order_id : Nat
  beverage_id : Nat
  quantity : Int
  deriving DecidableEq, Repr

/-- The relational store: one list of rows per table, plus a fresh-id
counter standing for the store's id generation at commit time. -/
structure Store where
  orders : List Order
  addresses : List Address
  pizzas : List Pizza
  pizza_types : List PizzaType
  beverages : List Beverage
  order_beverage_quantities : List OrderBeverageQuantity
  next_id : Nat
  deriving DecidableEq, Repr

/-- The empty store. -/
def emptyStore : Store :=
  { orders := [], addresses := [], pizzas := [], pizza_types := [],
    beverages := [], order_beverage_quantities := [], next_id := 0 }

/-- A Python exception surfacing from the embedded code. -/
inductive PyError where
  | attributeError
  deriving DecidableEq, Repr

/-- The order-creation input schema: user id plus embedded address data. -/
structure OrderCreateSchema where
  user_id : Nat
  address : AddressSchema
  deriving DecidableEq, Repr

/-- Modelled from the spec: `create_address` is the sibling CRUD collaborator
(`app.api.v1.endpoints.order.address.crud`, not among the provided sources);
per the spec it creates an Address from the embedded address data and
persists it. -/
def create_address (schema : AddressSchema) (s : Store) : Store × Address :=
  let addr : Address := { id := s.next_id, data := schema }
  ({ s with addresses := s.addresses ++ [addr], next_id := s.next_id + 1 }, addr)

/-- `create_order`: creates an Address from the embedded data, builds an Order
with the schema's user id, the new address and the initial `TRANSMITTED`
status, and persists it (`db.add` + `db.commit`). -/
def create_order (schema : OrderCreateSchema) (s : Store) : Store × Order :=
  let (s1, address) := create_address schema.address s
  let order : Order :=
    { id := s1.next_id, user_id := schema.user_id,
      address_id := some address.id, order_status := OrderStatus.TRANSMITTED }
  ({ s1 with orders := s1.orders ++ [order], next_id := s1.next_id + 1 }, order)

/-- `get_order_by_id`: `db.query(Order).filter(Order.id == order_id).first()`;
a missing row is logged and `None` is returned (no exception). -/
def get_order_by_id (order_id : Nat) (s : Store) : Option Order :=
  s.orders.find? (fun o => decide (o.id = order_id))

/-- `get_all_orders`: all orders, or—when a (truthy) status is supplied—the
orders whose status equals it. -/
def get_all_orders (s : Store) (status : Option OrderStatus) : List Order :=
  match status with
  | some st => s.orders.filter (fun o => decide (o.order_status = st))
  | none => s.orders

/-- `delete_order_by_id`: looks the order up; if found, deletes and commits,
otherwise logs an error and leaves the store untouched.  (Any store-level
cascade to child rows lives in the database schema, outside this module.) -/
def delete_order_by_id (order_id : Nat) (s : Store) : Store :=
  match get_order_by_id order_id s with
  | some _ => { s with orders := s.orders.eraseP (fun o => decide (o.id = order_id)) }
  | none => s

/-- `create_pizza`: builds a bare Pizza row; the pizza-type reference is set
only when a (truthy) pizza type was supplied; the row is added and committed;
then the logging call evaluates `pizza_type.id` unconditionally, which raises
`AttributeError` when `pizza_type` is `None` — after the commit. -/
def create_pizza (pizza_type : Option PizzaType) (s : Store) : Store × Pizza × Option PyError :=
  let entity : Pizza :=
    { id := s.next_id, pizza_type_id := pizza_type.map PizzaType.id, order_id := none }
  let s1 := { s with pizzas := s.pizzas ++ [entity], next_id := s.next_id + 1 }
  match pizza_type with
  | some _ => (s1, entity, none)
  | none => (s1, entity, some PyError.attributeError)

/-- `add_pizza_to_order`: calls `create_pizza` with the given (non-null) type,
appends the pizza to the order's collection (setting its order foreign key),
and commits. -/
def add_pizza_to_order (order : Order) (pizza_type : PizzaType) (s : Store) : Store × Pizza :=
  let (s1, pizza, _) := create_pizza (some pizza_type) s
  let pizza1 := { pizza with order_id := some order.id }
  ({ s1 with pizzas := s1.pizzas.map (fun p => if p.id = pizza.id then pizza1 else p) },
   pizza1)

/-- `delete_pizza_from_order`: finds a Pizza by
`Pizza.order_id == order.id` and `Pizza.id == pizza_id`; deletes and returns
`True` when found, otherwise returns `False` without touching the store. -/
def delete_pizza_from_order (order : Order) (pizza_id : Nat) (s : Store) : Store × Bool :=
  match s.pizzas.find? (fun p => decide (p.order_id = some order.id ∧ p.id = pizza_id)) with
  | some _ =>
      ({ s with pizzas :=
          s.pizzas.eraseP (fun p => decide (p.order_id = some order.id ∧ p.id = pizza_id)) },
       true)
  | none => (s, false)

/-- Overwrite the quantity of the first row matching the composite
(order id, beverage id) key — the row `.first()` returned and `setattr`
mutated. -/
def set_quantity_of_first (order_id beverage_id : Nat) (new_quantity : Int) :
    List OrderBeverageQuantity → List OrderBeverageQuantity
  | [] => []
  | r :: rs =>
      if r.order_id = order_id ∧ r.beverage_id = beverage_id then
        { r with quantity := new_quantity } :: rs
      else
        r :: set_quantity_of_first order_id beverage_id new_quantity rs

/-- `update_beverage_quantity_of_order`: finds the join row by the composite
(order id, beverage id) key; if present overwrites its quantity, commits and
returns it; otherwise logs an error and returns `None`. -/
def update_beverage_quantity_of_order (order_id beverage_id : Nat) (new_quantity : Int)
    (s : Store) : Store × Option OrderBeverageQuantity :=
  match s.order_beverage_quantities.find?
      (fun r => decide (r.order_id = order_id ∧ r.beverage_id = beverage_id)) with
  | some r =>
      let rows := set_quantity_of_first order_id beverage_id new_quantity
        s.order_beverage_quantities
      ({ s with order_beverage_quantities := rows },
       some { r with quantity := new_quantity })
  | none => (s, none)

/-- The beverage-side join of `get_price_of_order`:
`query(Beverage.price, OrderBeverageQuantity.quantity).join(OrderBeverageQuantity).join(Order).filter(Order.id == order_id)`.
Each result row pairs a beverage price with a quantity. -/
def beverage_rows (order_id : Nat) (s : Store) : List (ℚ × Int) :=
  s.order_beverage_quantities.flatMap (fun r =>
    s.beverages.flatMap (fun b =>
      if b.id = r.beverage_id then
        s.orders.filterMap (fun o =>
          if o.id = r.order_id ∧ o.id = order_id then some (b.price, r.quantity) else none)
      else []))

/-- The pizza-side join of `get_price_of_order`:
`query(func.sum(PizzaType.price)).join(Pizza).join(Order).filter(Order.id == order_id)`;
one price per joined (pizza, type, order) row.  The SQL `SUM` of an empty row
set is `NULL`, modelled below as `none`. -/
def pizza_price_rows (order_id : Nat) (s : Store) : List ℚ :=
  s.pizzas.flatMap (fun p =>
    s.pizza_types.flatMap (fun pt =>
      if p.pizza_type_id = some pt.id then
        s.orders.filterMap (fun o =>
          if p.order_id = some o.id ∧ o.id = order_id then some pt.price else none)
      else []))

/-- `get_price_of_order`: accumulates `price × quantity` over the beverage
join, takes the SQL `SUM` over the pizza join (absent when the join is empty),
and returns the beverage sum alone when the pizza aggregate is `NULL`,
otherwise the two added. -/
def get_price_of_order (order_id : Nat) (s : Store) : ℚ :=
  let price_beverage : ℚ :=
    (beverage_rows order_id s).foldl (fun acc row => acc + row.1 * (row.2 : ℚ)) 0
  let price_pizza : Option ℚ :=
    if pizza_price_rows order_id s = [] then none else some (pizza_price_rows order_id s).sum
  match price_pizza with
  | none => price_beverage
  | some pp => pp + price_beverage

/-! ### Spec-side pricing definitions (for the refinement claim C1)

These follow the spec's wording — "sum(beverage.price × quantity) over all
beverage-quantity rows for the order, plus sum(pizza_type.price) over all
pizzas in the order" — rather than the code's SQL joins, and are compared
with `get_price_of_order` in the refinement theorem. -/

/-- The catalog price of the beverage with the given id (spec side). -/
def specBeveragePrice (s : Store) (beverage_id : Nat) : ℚ :=
  match s.beverages.find? (fun b => decide (b.id = beverage_id)) with
  | some b => b.price
  | none => 0

/-- The catalog price of the pizza type referenced by a pizza (spec side). -/
def specPizzaTypePrice (s : Store) (pizza_type_id : Option Nat) : ℚ :=
  match s.pizza_types.find? (fun pt => decide (some pt.id = pizza_type_id)) with
  | some pt => pt.price
  | none => 0

/-- The spec's beverage total for an order: each beverage-quantity row of
the order contributes its beverage's price times its quantity. -/
def specBeverageTotal (order_id : Nat) (s : Store) : ℚ :=
  ((s.order_beverage_quantities.filter (fun r => decide (r.order_id = order_id))).map
    (fun r => specBeveragePrice s r.beverage_id * (r.quantity : ℚ))).sum

/-- The spec's pizza total for an order: each pizza row of the order
contributes its type's price exactly once (no per-pizza quantity, no
deduplication of shared types). -/
def specPizzaTotal (order_id : Nat) (s : Store) : ℚ :=
  ((s.pizzas.filter (fun p => decide (p.order_id = some order_id))).map
    (fun p => specPizzaTypePrice s p.pizza_type_id)).sum

/-- The spec's order price: beverage total plus pizza total. -/
def specOrderPrice (order_id : Nat) (s : Store) : ℚ :=
  specBeverageTotal order_id s + specPizzaTotal order_id s

/-- The spec's walk-through scenario: order U1 (id 1) with one Margherita
pizza (type price 8) and Cola quantity 2 at price 1.50. -/
def scenarioStore : Store :=
  { orders := [{ id := 1, user_id := 7, address_id := some 2,
                 order_status := OrderStatus.TRANSMITTED }],
    addresses := [{ id := 2, data := { data := "U1 address" } }],
    pizzas := [{ id := 20, pizza_type_id := some 10, order_id := some 1 }],
    pizza_types := [{ id := 10, name := "Margherita", price := 8 }],
    beverages := [{ id := 30, price := 3 / 2 }],
    order_beverage_quantities := [{ order_id := 1, beverage_id := 30, quantity := 2 }],
    next_id := 31 }

/-! ### Helper lemmas about the list-join combinators -/

/-- A left fold accumulating `price × quantity` is the sum of the mapped list. -/
lemma foldl_add_mul_eq_sum :
    ∀ (l : List (ℚ × Int)) (a : ℚ),
      l.foldl (fun acc row => acc + row.1 * (row.2 : ℚ)) a
        = a + (l.map (fun row => row.1 * (row.2 : ℚ))).sum := by
  intro l
  induction l with
  | nil => intro a; simp
  | cons x t ih =>
      intro a
      simp only [List.foldl_cons, List.map_cons, List.sum_cons, ih]
      ring

/-- A guarded `filterMap` over a list none of whose elements satisfies the
guard is empty. -/
lemma filterMap_ite_eq_nil {α β : Type} (c : α → Prop) [DecidablePred c] (f : α → β)
    (l : List α) (h : ∀ x ∈ l, ¬ c x) :
    l.filterMap (fun x => if c x then some (f x) else none) = [] := by
  induction l with
  | nil => simp
  | cons a t ih =>
      have ha : ¬ c a := h a (by simp)
      simp only [List.filterMap_cons, if_neg ha]
      exact ih (fun x hx => h x (by simp [hx]))

/-- A guarded `filterMap` keyed on a duplicate-free projection collapses to
the single element carrying the sought key. -/
lemma filterMap_ite_key_unique {α β : Type} (key : α → Nat) (k : Nat) (f : α → β) :
    ∀ (l : List α), (l.map key).Nodup →
      ∀ b, b ∈ l → key b = k →
      l.filterMap (fun x => if key x = k then some (f x) else none) = [f b] := by
  intro l
  induction l with
  | nil => intro _ b hb; simp at hb
  | cons a t ih =>
      intro hnd b hb hbk
      simp only [List.map_cons, List.nodup_cons] at hnd
      rcases List.mem_cons.mp hb with rfl | hbt
      · simp only [List.filterMap_cons, if_pos hbk]
        have : t.filterMap (fun x => if key x = k then some (f x) else none) = [] := by
          refine filterMap_ite_eq_nil _ _ _ (fun x hx hk => ?_)
          exact hnd.1 (hbk ▸ hk ▸ List.mem_map_of_mem key hx)
        simp [this]
      · have hak : ¬ key a = k := by
          intro hak
          exact hnd.1 (hak ▸ hbk ▸ List.mem_map_of_mem key hbt)
        simp only [List.filterMap_cons, if_neg hak]
        exact ih hnd.2 b hbt hbk

/-- A `flatMap` producing a guarded singleton is the corresponding guarded
`filterMap`. -/
lemma flatMap_ite_singleton_eq_filterMap {α β : Type} (c : α → Prop) [DecidablePred c]
    (f : α → β) (l : List α) :
    l.flatMap (fun x => if c x then [f x] else [])
      = l.filterMap (fun x => if c x then some (f x) else none) := by
  induction l with
  | nil => simp
  | cons a t ih =>
      by_cases ha : c a <;>
        simp [List.filterMap_cons, ha, ih]

/-- With duplicate-free ids, an existing order row and referential integrity
for the order's beverage rows, the beverage-side SQL join collapses to one
row per beverage-quantity row of the order, carrying the beverage's catalog
price and the row's quantity. -/
lemma beverage_rows_eq (order_id : Nat) (s : Store)
    (hond : (s.orders.map Order.id).Nodup)
    (ho : ∃ o ∈ s.orders, o.id = order_id)
    (hbnd : (s.beverages.map Beverage.id).Nodup)
    (hbex : ∀ r ∈ s.order_beverage_quantities, r.order_id = order_id →
      ∃ b ∈ s.beverages, b.id = r.beverage_id) :
    beverage_rows order_id s
      = (s.order_beverage_quantities.filter
          (fun r => decide (r.order_id = order_id))).map
          (fun r => (specBeveragePrice s r.beverage_id, r.quantity)) := by
  obtain ⟨o0, ho0m, ho0id⟩ := ho
  have main : ∀ (l : List OrderBeverageQuantity),
      (∀ r ∈ l, r.order_id = order_id → ∃ b ∈ s.beverages, b.id = r.beverage_id) →
      l.flatMap (fun r =>
        s.beverages.flatMap (fun b =>
          if b.id = r.beverage_id then
            s.orders.filterMap (fun o =>
              if o.id = r.order_id ∧ o.id = order_id then some (b.price, r.quantity)
              else none)
          else []))
        = (l.filter (fun r => decide (r.order_id = order_id))).map
            (fun r => (specBeveragePrice s r.beverage_id, r.quantity)) := by
    intro l hl
    induction l with
    | nil => simp
    | cons r t ih =>
        have ht := ih (fun x hx hxo => hl x (List.mem_cons_of_mem _ hx) hxo)
        by_cases hro : r.order_id = order_id
        · have horders : ∀ b : Beverage,
              s.orders.filterMap (fun o =>
                if o.id = r.order_id ∧ o.id = order_id then some (b.price, r.quantity)
                else none)
                = [(b.price, r.quantity)] := by
            intro b
            have hcongr : s.orders.filterMap (fun o =>
                if o.id = r.order_id ∧ o.id = order_id then some (b.price, r.quantity)
                else none)
                = s.orders.filterMap (fun o =>
                    if o.id = order_id then some (b.price, r.quantity) else none) := by
              refine List.filterMap_congr (fun o _ => ?_)
              refine if_congr ⟨fun h => h.2, fun h => ⟨hro ▸ h, h⟩⟩ rfl rfl
            rw [hcongr]
            exact filterMap_ite_key_unique Order.id order_id
              (fun _ => (b.price, r.quantity)) s.orders hond o0 ho0m ho0id
          obtain ⟨b0, hb0m, hb0id⟩ := hl r (List.mem_cons_self r t) hro
          have hbev : s.beverages.flatMap (fun b =>
              if b.id = r.beverage_id then
                s.orders.filterMap (fun o =>
                  if o.id = r.order_id ∧ o.id = order_id then some (b.price, r.quantity)
                  else none)
              else [])
              = [(specBeveragePrice s r.beverage_id, r.quantity)] := by
            have h1 : s.beverages.flatMap (fun b =>
                if b.id = r.beverage_id then
                  s.orders.filterMap (fun o =>
                    if o.id = r.order_id ∧ o.id = order_id then some (b.price, r.quantity)
                    else none)
                else [])
                = s.beverages.flatMap (fun b =>
                    if b.id = r.beverage_id then [(b.price, r.quantity)] else []) :=
              List.flatMap_congr (fun b _ => by rw [horders b])
            rw [h1, flatMap_ite_singleton_eq_filterMap]
            have hkey := filterMap_ite_key_unique Beverage.id r.beverage_id
              (fun b => (b.price, r.quantity)) s.beverages hbnd b0 hb0m hb0id
            rw [hkey]
            have hprice : specBeveragePrice s r.beverage_id = b0.price := by
              unfold specBeveragePrice
              cases hfind : s.beverages.find? (fun b => decide (b.id = r.beverage_id)) with
              | none =>
                  exfalso
                  have := List.find?_eq_none.mp hfind b0 hb0m
                  simp [hb0id] at this
              | some b1 =>
                  have hb1m := List.mem_of_find?_eq_some hfind
                  have hb1id : b1.id = r.beverage_id := by
                    have := List.find?_some hfind
                    simpa using this
                  have : b1 = b0 :=
                    List.inj_on_of_nodup_map hbnd hb1m hb0m (hb1id.trans hb0id.symm)
                  simp [this]
            rw [hprice]
          rw [List.flatMap_cons, hbev, ht, List.filter_cons_of_pos (by simp [hro]),
            List.map_cons, List.singleton_append]
        · have hbev0 : s.beverages.flatMap (fun b =>
              if b.id = r.beverage_id then
                s.orders.filterMap (fun o =>
                  if o.id = r.order_id ∧ o.id = order_id then some (b.price, r.quantity)
                  else none)
              else [])
              = [] := by
            have hempty : ∀ b : Beverage,
                s.orders.filterMap (fun o =>
                  if o.id = r.order_id ∧ o.id = order_id then some (b.price, r.quantity)
                  else none) = [] := by
              intro b
              exact filterMap_ite_eq_nil _ _ _
                (fun o _ hc => hro (hc.1.symm.trans hc.2))
            have h1 : s.beverages.flatMap (fun b =>
                if b.id = r.beverage_id then
                  s.orders.filterMap (fun o =>
                    if o.id = r.order_id ∧ o.id = order_id then some (b.price, r.quantity)
                    else none)
                else [])
                = s.beverages.flatMap (fun b =>
                    if b.id = r.beverage_id then ([] : List (ℚ × Int)) else []) :=
              List.flatMap_congr (fun b _ => by rw [hempty b])
            rw [h1]
            simp
          rw [List.flatMap_cons, hbev0, List.nil_append, ht,
            List.filter_cons_of_neg (by simp [hro])]
  have := main s.order_beverage_quantities hbex
  unfold beverage_rows
  exact this

/-- With duplicate-free ids, an existing order row and referential integrity
for the order's pizzas, the pizza-side SQL join collapses to one price per
pizza row of the order: its type's catalog price, taken once per row. -/
lemma pizza_price_rows_eq (order_id : Nat) (s : Store)
    (hond : (s.orders.map Order.id).Nodup)
    (ho : ∃ o ∈ s.orders, o.id = order_id)
    (hptnd : (s.pizza_types.map PizzaType.id).Nodup)
    (hptex : ∀ p ∈ s.pizzas, p.order_id = some order_id →
      ∃ pt ∈ s.pizza_types, p.pizza_type_id = some pt.id) :
    pizza_price_rows order_id s
      = (s.pizzas.filter (fun p => decide (p.order_id = some order_id))).map
          (fun p => specPizzaTypePrice s p.pizza_type_id) := by
  obtain ⟨o0, ho0m, ho0id⟩ := ho
  have main : ∀ (l : List Pizza),
      (∀ p ∈ l, p.order_id = some order_id →
        ∃ pt ∈ s.pizza_types, p.pizza_type_id = some pt.id) →
      l.flatMap (fun p =>
        s.pizza_types.flatMap (fun pt =>
          if p.pizza_type_id = some pt.id then
            s.orders.filterMap (fun o =>
              if p.order_id = some o.id ∧ o.id = order_id then some pt.price else none)
          else []))
        = (l.filter (fun p => decide (p.order_id = some order_id))).map
            (fun p => specPizzaTypePrice s p.pizza_type_id) := by
    intro l hl
    induction l with
    | nil => simp
    | cons p t ih =>
        have ht := ih (fun x hx hxo => hl x (List.mem_cons_of_mem _ hx) hxo)
        by_cases hpo : p.order_id = some order_id
        · have horders : ∀ pt : PizzaType,
              s.orders.filterMap (fun o =>
                if p.order_id = some o.id ∧ o.id = order_id then some pt.price else none)
                = [pt.price] := by
            intro pt
            have hcongr : s.orders.filterMap (fun o =>
                if p.order_id = some o.id ∧ o.id = order_id then some pt.price else none)
                = s.orders.filterMap (fun o =>
                    if o.id = order_id then some pt.price else none) := by
              refine List.filterMap_congr (fun o _ => ?_)
              refine if_congr ⟨fun h => h.2, fun h => ⟨h ▸ hpo, h⟩⟩ rfl rfl
            rw [hcongr]
            exact filterMap_ite_key_unique Order.id order_id (fun _ => pt.price)
              s.orders hond o0 ho0m ho0id
          obtain ⟨pt0, hpt0m, hpt0id⟩ := hl p (List.mem_cons_self p t) hpo
          have htypes : s.pizza_types.flatMap (fun pt =>
              if p.pizza_type_id = some pt.id then
                s.orders.filterMap (fun o =>
                  if p.order_id = some o.id ∧ o.id = order_id then some pt.price else none)
              else [])
              = [specPizzaTypePrice s p.pizza_type_id] := by
            have h1 : s.pizza_types.flatMap (fun pt =>
                if p.pizza_type_id = some pt.id then
                  s.orders.filterMap (fun o =>
                    if p.order_id = some o.id ∧ o.id = order_id then some pt.price else none)
                else [])
                = s.pizza_types.flatMap (fun pt =>
                    if p.pizza_type_id = some pt.id then [pt.price] else []) :=
              List.flatMap_congr (fun pt _ => by rw [horders pt])
            have h2 : s.pizza_types.flatMap (fun pt =>
                if p.pizza_type_id = some pt.id then [pt.price] else [])
                = s.pizza_types.flatMap (fun pt =>
                    if pt.id = pt0.id then [pt.price] else []) := by
              refine List.flatMap_congr (fun pt _ => ?_)
              refine if_congr ?_ rfl rfl
              rw [hpt0id]
              exact ⟨fun h => (Option.some_inj.mp h).symm, fun h => by rw [h]⟩
            rw [h1, h2, flatMap_ite_singleton_eq_filterMap,
              filterMap_ite_key_unique PizzaType.id pt0.id (fun pt => pt.price)
                s.pizza_types hptnd pt0 hpt0m rfl]
            have hprice : specPizzaTypePrice s p.pizza_type_id = pt0.price := by
              unfold specPizzaTypePrice
              cases hfind : s.pizza_types.find?
                  (fun pt => decide (some pt.id = p.pizza_type_id)) with
              | none =>
                  exfalso
                  have := List.find?_eq_none.mp hfind pt0 hpt0m
                  simp [hpt0id] at this
              | some pt1 =>
                  have hpt1m := List.mem_of_find?_eq_some hfind
                  have hpt1id : some pt1.id = p.pizza_type_id := by
                    have := List.find?_some hfind
                    simpa using this
                  have hkey : pt1.id = pt0.id :=
                    Option.some_inj.mp (hpt1id.trans hpt0id)
                  have : pt1 = pt0 :=
                    List.inj_on_of_nodup_map hptnd hpt1m hpt0m hkey
                  simp [this]
            rw [hprice]
          rw [List.flatMap_cons, htypes, ht, List.filter_cons_of_pos (by simp [hpo]),
            List.map_cons, List.singleton_append]
        · have htypes0 : s.pizza_types.flatMap (fun pt =>
              if p.pizza_type_id = some pt.id then
                s.orders.filterMap (fun o =>
                  if p.order_id = some o.id ∧ o.id = order_id then some pt.price else none)
              else [])
              = [] := by
            have hempty : ∀ pt : PizzaType,
                s.orders.filterMap (fun o =>
                  if p.order_id = some o.id ∧ o.id = order_id then some pt.price else none)
                  = [] := by
              intro pt
              refine filterMap_ite_eq_nil _ _ _ (fun o _ hc => ?_)
              exact hpo (hc.2 ▸ hc.1)
            have h1 : s.pizza_types.flatMap (fun pt =>
                if p.pizza_type_id = some pt.id then
                  s.orders.filterMap (fun o =>
                    if p.order_id = some o.id ∧ o.id = order_id then some pt.price else none)
                else [])
                = s.pizza_types.flatMap (fun pt =>
                    if p.pizza_type_id = some pt.id then ([] : List ℚ) else []) :=
              List.flatMap_congr (fun pt _ => by rw [hempty pt])
            rw [h1]
            simp
          rw [List.flatMap_cons, htypes0, List.nil_append, ht,
            List.filter_cons_of_neg (by simp [hpo])]
  have := main s.pizzas hptex
  unfold pizza_price_rows
  exact this

/-- Closed form of `get_price_of_order`: beverage fold alone when the pizza
join is empty, otherwise pizza sum plus beverage fold. -/
lemma get_price_of_order_eq (order_id : Nat) (s : Store) :
    get_price_of_order order_id s =
      if pizza_price_rows order_id s = [] then
        (beverage_rows order_id s).foldl (fun acc row => acc + row.1 * (row.2 : ℚ)) 0
      else
        (pizza_price_rows order_id s).sum
          + (beverage_rows order_id s).foldl (fun acc row => acc + row.1 * (row.2 : ℚ)) 0 := by
  unfold get_price_of_order
  by_cases h : pizza_price_rows order_id s = [] <;> simp [h]

/-- C1: for every order, `get_price_of_order` returns the sum over the
order's beverage-quantity rows of price × quantity plus the sum of the
pizza-type price of each pizza row (each pizza row contributing its type's
price exactly once, with no per-pizza quantity and no deduplication of
shared types — this is exactly `specOrderPrice`); when the order has no
pizzas the pizza aggregate (the pizza join) is absent/empty and the beverage
sum alone is returned.  The hypotheses are store well-formedness: ids are
duplicate-free primary keys, the order row exists, and the order's rows
reference existing beverages/pizza types. -/
theorem get_price_of_order_matches_spec (order_id : Nat) (s : Store)
    (hond : (s.orders.map Order.id).Nodup)
    (ho : ∃ o ∈ s.orders, o.id = order_id)
    (hbnd : (s.beverages.map Beverage.id).Nodup)
    (hbex : ∀ r ∈ s.order_beverage_quantities, r.order_id = order_id →
      ∃ b ∈ s.beverages, b.id = r.beverage_id)
    (hptnd : (s.pizza_types.map PizzaType.id).Nodup)
    (hptex : ∀ p ∈ s.pizzas, p.order_id = some order_id →
      ∃ pt ∈ s.pizza_types, p.pizza_type_id = some pt.id) :
    get_price_of_order order_id s = specOrderPrice order_id s
    ∧ ((∀ p ∈ s.pizzas, p.order_id ≠ some order_id) →
        pizza_price_rows order_id s = []
        ∧ get_price_of_order order_id s = specBeverageTotal order_id s) := by
  have hbrows := beverage_rows_eq order_id s hond ho hbnd hbex
  have hprows := pizza_price_rows_eq order_id s hond ho hptnd hptex
  have hbev : (beverage_rows order_id s).foldl
      (fun acc row => acc + row.1 * (row.2 : ℚ)) 0 = specBeverageTotal order_id s := by
    rw [hbrows, foldl_add_mul_eq_sum, zero_add]
    unfold specBeverageTotal
    rw [List.map_map]
    rfl
  have hpz : (pizza_price_rows order_id s).sum = specPizzaTotal order_id s := by
    rw [hprows]
    rfl
  have hmain : get_price_of_order order_id s = specOrderPrice order_id s := by
    rw [get_price_of_order_eq]
    by_cases hnil : pizza_price_rows order_id s = []
    · rw [if_pos hnil, hbev]
      have h0 : specPizzaTotal order_id s = 0 := by rw [← hpz, hnil, List.sum_nil]
      unfold specOrderPrice
      rw [h0, add_zero]
    · rw [if_neg hnil, hbev, hpz]
      unfold specOrderPrice
      ring
  refine ⟨hmain, fun hnp => ?_⟩
  have hfilter : s.pizzas.filter (fun p => decide (p.order_id = some order_id)) = [] := by
    rw [List.filter_eq_nil_iff]
    intro p hp
    simp [hnp p hp]
  have hnil : pizza_price_rows order_id s = [] := by
    rw [hprows, hfilter, List.map_nil]
  refine ⟨hnil, ?_⟩
  rw [get_price_of_order_eq, if_pos hnil, hbev]

/-- Witness for C1 at the spec's scenario: order U1 with one Margherita
($8) and Cola quantity 2 at $1.50 prices at exactly 11. -/
theorem get_price_of_order_matches_spec_scenario :
    get_price_of_order 1 scenarioStore = 11 ∧ specOrderPrice 1 scenarioStore = 11 := by
  have h := get_price_of_order_matches_spec 1 scenarioStore
    (by decide) (by decide) (by decide) (by decide) (by decide) (by decide)
  have hs : specOrderPrice 1 scenarioStore = 11 := by
    simp [specOrderPrice, specBeverageTotal, specPizzaTotal, specBeveragePrice,
      specPizzaTypePrice, scenarioStore, List.find?]
    norm_num
  exact ⟨h.1.trans hs, hs⟩

/-! ### Helper lemmas for the point operations (`find?`, `eraseP`,
first-match update) -/

/-- `find?` returns the head of the first-match decomposition. -/
lemma find?_first {α : Type} (p : α → Bool) :
    ∀ (l₁ : List α) (r : α) (l₂ : List α),
      (∀ x ∈ l₁, p x = false) → p r = true →
      (l₁ ++ r :: l₂).find? p = some r := by
  intro l₁
  induction l₁ with
  | nil => intro r l₂ _ hr; simp [List.find?_cons, hr]
  | cons a t ih =>
      intro r l₂ h1 hr
      have ha : p a = false := h1 a (by simp)
      simp only [List.cons_append, List.find?_cons, ha]
      exact ih r l₂ (fun x hx => h1 x (by simp [hx])) hr

/-- `eraseP` removes exactly the head of the first-match decomposition. -/
lemma eraseP_first {α : Type} (p : α → Bool) :
    ∀ (l₁ : List α) (r : α) (l₂ : List α),
      (∀ x ∈ l₁, p x = false) → p r = true →
      (l₁ ++ r :: l₂).eraseP p = l₁ ++ l₂ := by
  intro l₁
  induction l₁ with
  | nil => intro r l₂ _ hr; simp [List.eraseP_cons, hr]
  | cons a t ih =>
      intro r l₂ h1 hr
      have ha : p a = false := h1 a (by simp)
      simp only [List.cons_append, List.eraseP_cons, ha, cond_false]
      rw [ih r l₂ (fun x hx => h1 x (by simp [hx])) hr]

/-- `set_quantity_of_first` rewrites exactly the head of the first-match
decomposition. -/
lemma set_quantity_of_first_append (order_id beverage_id : Nat) (q : Int) :
    ∀ (l₁ : List OrderBeverageQuantity) (r : OrderBeverageQuantity)
      (l₂ : List OrderBeverageQuantity),
      (∀ x ∈ l₁, ¬(x.order_id = order_id ∧ x.beverage_id = beverage_id)) →
      r.order_id = order_id → r.beverage_id = beverage_id →
      set_quantity_of_first order_id beverage_id q (l₁ ++ r :: l₂)
        = l₁ ++ { r with quantity := q } :: l₂ := by
  intro l₁
  induction l₁ with
  | nil =>
      intro r l₂ _ hro hrb
      simp [set_quantity_of_first, hro, hrb]
  | cons a t ih =>
      intro r l₂ h1 hro hrb
      have ha : ¬(a.order_id = order_id ∧ a.beverage_id = beverage_id) := h1 a (by simp)
      simp only [List.cons_append, set_quantity_of_first, if_neg ha]
      exact congrArg (fun x => a :: x) (ih r l₂ (fun x hx => h1 x (by simp [hx])) hro hrb)

/-- Mapping a fresh-id replacement over rows whose ids all differ from the
fresh id leaves them unchanged. -/
lemma map_update_fresh (nid : Nat) (q : Pizza) :
    ∀ (l : List Pizza), (∀ p ∈ l, p.id ≠ nid) →
      l.map (fun p => if p.id = nid then q else p) = l := by
  intro l hl
  rw [List.map_congr_left (fun p hp => if_neg (hl p hp))]
  simp

/-! ### Claim theorems -/

/-- C2: for every create-order input schema, `create_order` returns an Order
whose status is the initial `TRANSMITTED`, whose address reference is
non-null and points to an Address row built from the schema's embedded
address data, and the Order is persisted in the resulting store. -/
theorem create_order_spec (schema : OrderCreateSchema) (s : Store) :
    (create_order schema s).2.order_status = OrderStatus.TRANSMITTED
    ∧ (create_order schema s).2.address_id.isSome = true
    ∧ (create_order schema s).2 ∈ (create_order schema s).1.orders
    ∧ ∃ a ∈ (create_order schema s).1.addresses,
        (create_order schema s).2.address_id = some a.id ∧ a.data = schema.address := by
  refine ⟨rfl, rfl, ?_, ?_⟩
  · simp [create_order, create_address]
  · exact ⟨{ id := s.next_id, data := schema.address },
      by simp [create_order, create_address], rfl, rfl⟩

/-- C3 (code bug): called with a null pizza type, `create_pizza` does leave
the pizza-type reference unset and commits the bare Pizza row, but the
subsequent logging call dereferences `pizza_type.id` unconditionally, so the
call raises `AttributeError` instead of completing normally. -/
theorem create_pizza_none_raises :
    (create_pizza none emptyStore).2.2 = some PyError.attributeError
    ∧ (create_pizza none emptyStore).2.1.pizza_type_id = none
    ∧ (create_pizza none emptyStore).2.1 ∈ (create_pizza none emptyStore).1.pizzas := by
  decide

/-- C7: for every id matched by no order row, `get_order_by_id` returns the
empty result `none`; the embedded operation is a total function with no
error outcome, so nothing is raised. -/
theorem get_order_by_id_not_found (order_id : Nat) (s : Store)
    (h : ∀ o ∈ s.orders, o.id ≠ order_id) :
    get_order_by_id order_id s = none := by
  unfold get_order_by_id
  exact List.find?_eq_none.mpr (fun o ho => by simp [h o ho])

/-- Witness for C7: looking up id 99 in the scenario store yields `none`. -/
theorem get_order_by_id_not_found_at_99 :
    (∀ o ∈ scenarioStore.orders, o.id ≠ 99)
    ∧ get_order_by_id 99 scenarioStore = none :=
  ⟨by decide, get_order_by_id_not_found 99 scenarioStore (by decide)⟩

/-- C9: with no status argument `get_all_orders` returns all orders, and with
a status it returns exactly the orders whose status equals it. -/
theorem get_all_orders_spec (s : Store) :
    get_all_orders s none = s.orders
    ∧ ∀ st o, o ∈ get_all_orders s (some st) ↔ o ∈ s.orders ∧ o.order_status = st := by
  refine ⟨rfl, fun st o => ?_⟩
  simp [get_all_orders, List.mem_filter]

/-- Witness for C9 on the scenario store: the unfiltered listing is the
orders table, the matching-status filter retains the transmitted order, and
a non-matching status filter drops it. -/
theorem get_all_orders_spec_at_scenario :
    get_all_orders scenarioStore none = scenarioStore.orders
    ∧ ({ id := 1, user_id := 7, address_id := some 2,
         order_status := OrderStatus.TRANSMITTED } : Order)
        ∈ get_all_orders scenarioStore (some OrderStatus.TRANSMITTED)
    ∧ ¬ ({ id := 1, user_id := 7, address_id := some 2,
           order_status := OrderStatus.TRANSMITTED } : Order)
        ∈ get_all_orders scenarioStore (some OrderStatus.DELIVERED) := by
  refine ⟨(get_all_orders_spec scenarioStore).1, ?_, ?_⟩
  · exact ((get_all_orders_spec scenarioStore).2 OrderStatus.TRANSMITTED _).mpr
      ⟨by decide, rfl⟩
  · intro hmem
    have := ((get_all_orders_spec scenarioStore).2 OrderStatus.DELIVERED _).mp hmem
    exact absurd this.2 (by decide)

/-- C4: when no beverage-quantity row matches the (order id, beverage id)
pair, `update_beverage_quantity_of_order` returns `none` and leaves the
store unchanged; when a row matches, the first matching row's quantity is
overwritten with the new value and the updated entity is returned. -/
theorem update_beverage_quantity_of_order_spec (order_id beverage_id : Nat)
    (new_quantity : Int) (s : Store) :
    ((∀ r ∈ s.order_beverage_quantities,
        ¬(r.order_id = order_id ∧ r.beverage_id = beverage_id)) →
      update_beverage_quantity_of_order order_id beverage_id new_quantity s = (s, none))
    ∧ (∀ l₁ r l₂,
        s.order_beverage_quantities = l₁ ++ r :: l₂ →
        (∀ x ∈ l₁, ¬(x.order_id = order_id ∧ x.beverage_id = beverage_id)) →
        r.order_id = order_id → r.beverage_id = beverage_id →
        update_beverage_quantity_of_order order_id beverage_id new_quantity s
          = ({ s with order_beverage_quantities :=
                l₁ ++ { r with quantity := new_quantity } :: l₂ },
             some { r with quantity := new_quantity })) := by
  constructor
  · intro h
    have hf : s.order_beverage_quantities.find?
        (fun r => decide (r.order_id = order_id ∧ r.beverage_id = beverage_id)) = none :=
      List.find?_eq_none.mpr (fun x hx => by simpa using h x hx)
    unfold update_beverage_quantity_of_order
    rw [hf]
  · intro l₁ r l₂ hdec h1 hro hrb
    have hf : s.order_beverage_quantities.find?
        (fun r => decide (r.order_id = order_id ∧ r.beverage_id = beverage_id)) = some r := by
      rw [hdec]
      exact find?_first _ l₁ r l₂
        (fun x hx => by simpa using h1 x hx) (by simp [hro, hrb])
    have hset : set_quantity_of_first order_id beverage_id new_quantity
        s.order_beverage_quantities = l₁ ++ { r with quantity := new_quantity } :: l₂ := by
      rw [hdec]
      exact set_quantity_of_first_append order_id beverage_id new_quantity
        l₁ r l₂ h1 hro hrb
    unfold update_beverage_quantity_of_order
    rw [hf]
    simp only [hset]

/-- Witness for C4: a missing pair on the empty store returns `none` and
leaves the store untouched; the scenario store's (1, 30) row is overwritten
to quantity 5 and returned. -/
theorem update_beverage_quantity_of_order_spec_cases :
    update_beverage_quantity_of_order 1 2 5 emptyStore = (emptyStore, none)
    ∧ update_beverage_quantity_of_order 1 30 5 scenarioStore
        = ({ scenarioStore with order_beverage_quantities :=
              [] ++ { order_id := 1, beverage_id := 30, quantity := 5 } :: [] },
           some { order_id := 1, beverage_id := 30, quantity := 5 }) := by
  constructor
  · exact (update_beverage_quantity_of_order_spec 1 2 5 emptyStore).1
      (by intro r hr; simp [emptyStore] at hr)
  · exact (update_beverage_quantity_of_order_spec 1 30 5 scenarioStore).2
      [] { order_id := 1, beverage_id := 30, quantity := 2 } []
      rfl (by intro x hx; simp at hx) rfl rfl

/-- C5: `delete_pizza_from_order` deletes the pizza and returns `true`
exactly when a pizza with the given id belongs to the given order; when no
pizza row matches both the order and the id (it belongs to a different order
or does not exist), it returns `false` and deletes nothing. -/
theorem delete_pizza_from_order_spec (order : Order) (pizza_id : Nat) (s : Store) :
    ((∀ p ∈ s.pizzas, ¬(p.order_id = some order.id ∧ p.id = pizza_id)) →
      delete_pizza_from_order order pizza_id s = (s, false))
    ∧ (∀ l₁ p l₂,
        s.pizzas = l₁ ++ p :: l₂ →
        (∀ x ∈ l₁, ¬(x.order_id = some order.id ∧ x.id = pizza_id)) →
        p.order_id = some order.id → p.id = pizza_id →
        delete_pizza_from_order order pizza_id s
          = ({ s with pizzas := l₁ ++ l₂ }, true)) := by
  constructor
  · intro h
    have hf : s.pizzas.find?
        (fun p => decide (p.order_id = some order.id ∧ p.id = pizza_id)) = none :=
      List.find?_eq_none.mpr (fun x hx => by simpa using h x hx)
    unfold delete_pizza_from_order
    rw [hf]
  · intro l₁ p l₂ hdec h1 hpo hpid
    have hf : s.pizzas.find?
        (fun p => decide (p.order_id = some order.id ∧ p.id = pizza_id)) = some p := by
      rw [hdec]
      exact find?_first _ l₁ p l₂
        (fun x hx => by simpa using h1 x hx) (by simp [hpo, hpid])
    have herase : s.pizzas.eraseP
        (fun p => decide (p.order_id = some order.id ∧ p.id = pizza_id)) = l₁ ++ l₂ := by
      rw [hdec]
      exact eraseP_first _ l₁ p l₂
        (fun x hx => by simpa using h1 x hx) (by simp [hpo, hpid])
    unfold delete_pizza_from_order
    rw [hf]
    simp only [herase]

/-- Witness for C5: the scenario pizza (id 20, order 1) is deleted with
result `true`; asking the same order for a nonexistent pizza id 99 returns
`false` and keeps the store. -/
theorem delete_pizza_from_order_spec_cases :
    delete_pizza_from_order
        { id := 1, user_id := 7, address_id := some 2,
          order_status := OrderStatus.TRANSMITTED } 20 scenarioStore
      = ({ scenarioStore with pizzas := [] ++ [] }, true)
    ∧ delete_pizza_from_order
        { id := 1, user_id := 7, address_id := some 2,
          order_status := OrderStatus.TRANSMITTED } 99 scenarioStore
      = (scenarioStore, false) := by
  constructor
  · exact (delete_pizza_from_order_spec _ 20 scenarioStore).2
      [] { id := 20, pizza_type_id := some 10, order_id := some 1 } []
      rfl (by intro x hx; simp at hx) rfl rfl
  · exact (delete_pizza_from_order_spec _ 99 scenarioStore).1 (by decide)

/-- C6: `delete_order_by_id` removes the order (and commits) when an order
with the id exists; when none exists it changes nothing and raises nothing,
so deleting a missing id twice equals deleting it once. -/
theorem delete_order_by_id_spec (order_id : Nat) (s : Store) :
    ((∀ o ∈ s.orders, o.id ≠ order_id) →
      delete_order_by_id order_id s = s
      ∧ delete_order_by_id order_id (delete_order_by_id order_id s)
          = delete_order_by_id order_id s)
    ∧ (∀ l₁ o l₂,
        s.orders = l₁ ++ o :: l₂ →
        (∀ x ∈ l₁, x.id ≠ order_id) → o.id = order_id →
        delete_order_by_id order_id s = { s with orders := l₁ ++ l₂ }) := by
  constructor
  · intro h
    have hf : get_order_by_id order_id s = none :=
      get_order_by_id_not_found order_id s h
    have hnoop : delete_order_by_id order_id s = s := by
      unfold delete_order_by_id
      rw [hf]
    exact ⟨hnoop, by rw [hnoop, hnoop]⟩
  · intro l₁ o l₂ hdec h1 hoid
    have hf : get_order_by_id order_id s = some o := by
      unfold get_order_by_id
      rw [hdec]
      exact find?_first _ l₁ o l₂
        (fun x hx => by simpa using h1 x hx) (by simp [hoid])
    have herase : s.orders.eraseP (fun o => decide (o.id = order_id)) = l₁ ++ l₂ := by
      rw [hdec]
      exact eraseP_first _ l₁ o l₂
        (fun x hx => by simpa using h1 x hx) (by simp [hoid])
    unfold delete_order_by_id
    rw [hf]
    simp only [herase]

/-- Witness for C6: deleting missing id 99 from the scenario store is a
no-op (and so twice equals once), while deleting id 1 removes the order
row. -/
theorem delete_order_by_id_spec_cases :
    delete_order_by_id 99 scenarioStore = scenarioStore
    ∧ delete_order_by_id 99 (delete_order_by_id 99 scenarioStore)
        = delete_order_by_id 99 scenarioStore
    ∧ delete_order_by_id 1 scenarioStore = { scenarioStore with orders := [] ++ [] } := by
  have h1 := (delete_order_by_id_spec 99 scenarioStore).1 (by decide)
  have h2 := (delete_order_by_id_spec 1 scenarioStore).2
    [] { id := 1, user_id := 7, address_id := some 2,
         order_status := OrderStatus.TRANSMITTED } []
    rfl (by intro x hx; simp at hx) rfl
  exact ⟨h1.1, h1.2, h2⟩

/-- C8: `add_pizza_to_order` appends exactly one pizza to the order's
collection — the order's pizza count grows by one — and the returned pizza's
type reference is the given pizza type's id.  The freshness hypothesis says
the store's id counter has not already been handed out, which every store
reachable by these operations satisfies. -/
theorem add_pizza_to_order_spec (order : Order) (pt : PizzaType) (s : Store)
    (hfresh : ∀ p ∈ s.pizzas, p.id ≠ s.next_id) :
    (add_pizza_to_order order pt s).2.pizza_type_id = some pt.id
    ∧ ((add_pizza_to_order order pt s).1.pizzas.filter
          (fun p => decide (p.order_id = some order.id))).length
        = (s.pizzas.filter (fun p => decide (p.order_id = some order.id))).length + 1 := by
  have key : (add_pizza_to_order order pt s).1.pizzas
      = s.pizzas ++ [{ id := s.next_id, pizza_type_id := some pt.id,
                       order_id := some order.id }] := by
    simp only [add_pizza_to_order, create_pizza, Option.map_some, List.map_append]
    rw [map_update_fresh s.next_id _ s.pizzas hfresh]
    simp
  refine ⟨rfl, ?_⟩
  rw [key, List.filter_append, List.length_append]
  simp

/-- Witness for C8: adding a Margherita to order 1 on the empty store sets
the type reference to 10 and raises the order's pizza count from 0 to 1. -/
theorem add_pizza_to_order_spec_at_empty :
    (∀ p ∈ emptyStore.pizzas, p.id ≠ emptyStore.next_id)
    ∧ ((add_pizza_to_order
          { id := 1, user_id := 7, address_id := some 2,
            order_status := OrderStatus.TRANSMITTED }
          { id := 10, name := "Margherita", price := 8 } emptyStore).2.pizza_type_id
        = some 10
      ∧ ((add_pizza_to_order
            { id := 1, user_id := 7, address_id := some 2,
              order_status := OrderStatus.TRANSMITTED }
            { id := 10, name := "Margherita", price := 8 } emptyStore).1.pizzas.filter
            (fun p => decide (p.order_id = some 1))).length
          = (emptyStore.pizzas.filter (fun p => decide (p.order_id = some 1))).length + 1) :=
  ⟨by decide,
   add_pizza_to_order_spec
     { id := 1, user_id := 7, address_id := some 2,
       order_status := OrderStatus.TRANSMITTED }
     { id := 10, name := "Margherita", price := 8 } emptyStore (by decide)⟩

/-- C10: for an order id matching no pizza row and no beverage-quantity row
(in particular the id of a nonexistent order), both joins are empty, so
`get_price_of_order` returns 0; the embedded function is total with no
error or not-found channel, so nothing is raised. -/
theorem get_price_of_order_no_rows (order_id : Nat) (s : Store)
    (hnp : ∀ p ∈ s.pizzas, p.order_id ≠ some order_id)
    (hnb : ∀ r ∈ s.order_beverage_quantities, r.order_id ≠ order_id) :
    get_price_of_order order_id s = 0 := by
  have hb : beverage_rows order_id s = [] := by
    unfold beverage_rows
    rw [List.flatMap_eq_nil_iff]
    intro r hr
    rw [List.flatMap_eq_nil_iff]
    intro b _
    by_cases hc : b.id = r.beverage_id
    · rw [if_pos hc]
      exact filterMap_ite_eq_nil _ _ _
        (fun o _ h => hnb r hr (h.1.symm.trans h.2))
    · rw [if_neg hc]
  have hp : pizza_price_rows order_id s = [] := by
    unfold pizza_price_rows
    rw [List.flatMap_eq_nil_iff]
    intro p hpmem
    rw [List.flatMap_eq_nil_iff]
    intro pt _
    by_cases hc : p.pizza_type_id = some pt.id
    · rw [if_pos hc]
      exact filterMap_ite_eq_nil _ _ _
        (fun o _ h => hnp p hpmem (h.2 ▸ h.1))
    · rw [if_neg hc]
  rw [get_price_of_order_eq, if_pos hp, hb, List.foldl_nil]

/-- Witness for C10: id 99 exists nowhere in the scenario store and prices
at 0. -/
theorem get_price_of_order_no_rows_at_99 :
    (∀ p ∈ scenarioStore.pizzas, p.order_id ≠ some 99)
    ∧ (∀ r ∈ scenarioStore.order_beverage_quantities, r.order_id ≠ 99)
    ∧ get_price_of_order 99 scenarioStore = 0 :=
  ⟨by decide, by decide,
   get_price_of_order_no_rows 99 scenarioStore (by decide) (by decide)⟩

end PizzaOrder
